import Mathlib

/-!
# Verification of the `codekeeper` Person record

Shallow embedding of `src/codekeeper/models/person.py`: a Django model with
optional `first_name` / `last_name` text fields (`CharField(max_length=256,
blank=True, null=True)`), an `auto_now_add` timestamp `created`, an `auto_now`
timestamp `updated`, a `__str__` rendering `"{0}, {1}".format(last_name,
first_name)` and a `full_name` property rendering
`"{0} {1}".format(first_name, last_name)`.

Optional text fields are `Option String` (Python `None` is `none`); timestamps
are `Nat`. Python's `str.format` interpolates `str(None) = "None"` for an
absent value, which `formatArg` models, and `pyFormat` interprets the literal
positional template strings appearing in the source.
-/

/-- A persisted `Person` record: the four stored attributes of the model. -/
structure Person where
  first_name : Option String
  last_name : Option String
  created : Nat
  updated : Nat
deriving Repr, DecidableEq

/-- Python's rendering of an optional string argument under `str.format`:
`str(None)` is the literal text `"None"`; a present string passes through. -/
def formatArg : Option String → String
  | none => "None"
  | some s => s

/-- Interpreter for the positional format templates used by the source
(`"{0}, {1}"` and `"{0} {1}"`): `{0}` is replaced by `a0`, `{1}` by `a1`,
every other character is copied literally. -/
def pyFormat (a0 a1 : String) : List Char → String
  | [] => ""
  | '{' :: '0' :: '}' :: rest => a0 ++ pyFormat a0 a1 rest
  | '{' :: '1' :: '}' :: rest => a1 ++ pyFormat a0 a1 rest
  | c :: rest => String.singleton c ++ pyFormat a0 a1 rest

/-- `Person.__str__`: `"{0}, {1}".format(self.last_name, self.first_name)`. -/
def Person.str (p : Person) : String :=
  pyFormat (formatArg p.last_name) (formatArg p.first_name) "{0}, {1}".data

/-- `Person.full_name`: `"{0} {1}".format(self.first_name, self.last_name)`. -/
def Person.full_name (p : Person) : String :=
  pyFormat (formatArg p.first_name) (formatArg p.last_name) "{0} {1}".data

/-- Number of (possibly overlapping) occurrences of `pat` in `l`, counted at
each starting position. -/
def countOccs (pat : List Char) : List Char → Nat
  | [] => 0
  | c :: rest => (if pat.isPrefixOf (c :: rest) then 1 else 0) + countOccs pat rest

/-- Evaluating the `"{0}, {1}"` template is literal concatenation. -/
theorem pyFormat_comma (a0 a1 : String) :
    pyFormat a0 a1 "{0}, {1}".data = a0 ++ ", " ++ a1 := by
  show pyFormat a0 a1 ['{', '0', '}', ',', ' ', '{', '1', '}'] = a0 ++ ", " ++ a1
  simp only [pyFormat, String.append_assoc, String.append_empty]
  apply String.ext
  simp [String.singleton, String.data_append]

/-- Evaluating the `"{0} {1}"` template is literal concatenation. -/
theorem pyFormat_space (a0 a1 : String) :
    pyFormat a0 a1 "{0} {1}".data = a0 ++ " " ++ a1 := by
  show pyFormat a0 a1 ['{', '0', '}', ' ', '{', '1', '}'] = a0 ++ " " ++ a1
  simp only [pyFormat, String.append_assoc, String.append_empty]
  apply String.ext
  simp [String.singleton, String.data_append]

/-- **C1.** For every record, with any combination of present or absent name
fields, the display label (`Person.__str__`) equals the literal concatenation
of the last-name value, the string `", "`, and the first-name value, with an
absent field rendered as the absent-marker (`formatArg`). -/
theorem str_eq_last_comma_first (p : Person) :
    p.str = formatArg p.last_name ++ ", " ++ formatArg p.first_name := by
  unfold Person.str
  exact pyFormat_comma _ _

/-- **C2.** For every record, with any combination of present or absent name
fields, `full_name` equals the literal concatenation of the first-name value,
a single space, and the last-name value, with an absent field rendered as the
absent-marker (`formatArg`). -/
theorem full_name_eq_first_space_last (p : Person) :
    p.full_name = formatArg p.first_name ++ " " ++ formatArg p.last_name := by
  unfold Person.full_name
  exact pyFormat_space _ _

/-- Errors surfaced by the persistence collaborator.
Modelled from the spec: the external persistence layer (not part of this
fragment) rejects a name value exceeding the 256-character cap declared by
`CharField(max_length=256)`. -/
inductive PersistError where
  | lengthExceeded
deriving Repr, DecidableEq

/-- A name-field value is within the declared constraints: absent (`null=True`)
or text of at most 256 characters (`max_length=256`). -/
def fieldOk : Option String → Bool
  | none => true
  | some s => s.length ≤ 256

/-- Modelled from the spec: the persistence collaborator's create-with-defaults.
It auto-populates `created` (`auto_now_add=True`) and `updated`
(`auto_now=True`) with the current time `now`, stores the supplied name fields
(absent when not supplied), and rejects a name value over 256 characters. -/
def create (fn ln : Option String) (now : Nat) : Except PersistError Person :=
  if fieldOk fn && fieldOk ln then
    .ok { first_name := fn, last_name := ln, created := now, updated := now }
  else
    .error .lengthExceeded

/-- Modelled from the spec: the persistence collaborator's
update-with-timestamp-refresh. It replaces the name fields, refreshes
`updated` to the current time `now` (`auto_now=True`), leaves `created`
untouched, and rejects a name value over 256 characters. -/
def update (p : Person) (fn ln : Option String) (now : Nat) :
    Except PersistError Person :=
  if fieldOk fn && fieldOk ln then
    .ok { p with first_name := fn, last_name := ln, updated := now }
  else
    .error .lengthExceeded

/-- The stored record after an attempted update: a rejected update leaves the
stored record unchanged. -/
def applyUpdate (p : Person) (u : Option String × Option String × Nat) : Person :=
  match update p u.1 u.2.1 u.2.2 with
  | .ok q => q
  | .error _ => p

/-- Record states reachable through the persistence layer: a freshly created
record, or a successfully updated reachable record. Update steps carry the
spec's monotone-clock assumption: the current time is not earlier than the
record's last `updated` stamp. -/
inductive Reachable : Person → Prop where
  | of_create (fn ln : Option String) (now : Nat) (p : Person)
      (h : create fn ln now = .ok p) : Reachable p
  | of_update (p : Person) (fn ln : Option String) (now : Nat) (q : Person)
      (hp : Reachable p) (hclock : p.updated ≤ now)
      (h : update p fn ln now = .ok q) : Reachable q

/-- A single attempted update, successful or rejected, never changes
`created`. -/
theorem applyUpdate_created (p : Person) (u : Option String × Option String × Nat) :
    (applyUpdate p u).created = p.created := by
  unfold applyUpdate update
  by_cases h : (fieldOk u.1 && fieldOk u.2.1) = true
  · simp [h]
  · simp [h]

/-- **C3.** For a record whose `first_name` and `last_name` are both absent,
`__str__` and `full_name` each return a value (no error) containing exactly
two occurrences of the absent-marker `"None"`, separated by the respective
template's literal characters (`", "` for the display label, a single space
for `full_name`). -/
theorem both_absent_renders_marker_twice (p : Person)
    (hf : p.first_name = none) (hl : p.last_name = none) :
    p.str = "None" ++ ", " ++ "None" ∧
    p.full_name = "None" ++ " " ++ "None" ∧
    countOccs "None".data p.str.data = 2 ∧
    countOccs "None".data p.full_name.data = 2 := by
  have h1 : p.str = "None" ++ ", " ++ "None" := by
    unfold Person.str
    rw [hf, hl]
    exact pyFormat_comma _ _
  have h2 : p.full_name = "None" ++ " " ++ "None" := by
    unfold Person.full_name
    rw [hf, hl]
    exact pyFormat_space _ _
  refine ⟨h1, h2, ?_, ?_⟩
  · rw [h1]; decide
  · rw [h2]; decide

/-- Witness for C3 at the record with both name fields absent. -/
theorem both_absent_renders_marker_twice_witness :
    (Person.mk none none 0 0).str = "None" ++ ", " ++ "None" ∧
    (Person.mk none none 0 0).full_name = "None" ++ " " ++ "None" ∧
    countOccs "None".data (Person.mk none none 0 0).str.data = 2 ∧
    countOccs "None".data (Person.mk none none 0 0).full_name.data = 2 :=
  both_absent_renders_marker_twice (Person.mk none none 0 0) rfl rfl

/-- **C4.** Every record state reachable through the persistence layer
(creation followed by any sequence of successful updates under a monotone
clock) satisfies the invariant `created ≤ updated`. -/
theorem reachable_created_le_updated (p : Person) (h : Reachable p) :
    p.created ≤ p.updated := by
  induction h with
  | of_create fn ln now q hc =>
    unfold create at hc
    split at hc
    · cases hc
      exact Nat.le_refl _
    · cases hc
  | of_update p fn ln now q hp hclock hu ih =>
    unfold update at hu
    split at hu
    · cases hu
      exact Nat.le_trans ih hclock
    · cases hu

/-- Witness for C4 at a freshly created record. -/
theorem reachable_created_le_updated_witness :
    (Person.mk (some "Ada") (some "Lovelace") 3 3).created ≤
      (Person.mk (some "Ada") (some "Lovelace") 3 3).updated :=
  reachable_created_le_updated (Person.mk (some "Ada") (some "Lovelace") 3 3)
    (Reachable.of_create (some "Ada") (some "Lovelace") 3 _ rfl)

/-- **C5.** `created` is write-once: across any sequence of attempted updates
applied after the record is first persisted (successful ones replace the
stored record, rejected ones leave it unchanged), the stored record's
`created` timestamp never changes. -/
theorem created_unchanged_by_updates (p : Person)
    (us : List (Option String × Option String × Nat)) :
    (us.foldl applyUpdate p).created = p.created := by
  induction us generalizing p with
  | nil => rfl
  | cons u us ih =>
    rw [List.foldl_cons]
    rw [ih (applyUpdate p u)]
    exact applyUpdate_created p u

/-- **C6.** Every successful update refreshes `updated` to the current time,
and under the monotone-clock assumption the new value never decreases
relative to its value before the step. -/
theorem update_refreshes_updated (p : Person) (fn ln : Option String)
    (now : Nat) (q : Person) (hclock : p.updated ≤ now)
    (h : update p fn ln now = .ok q) :
    q.updated = now ∧ p.updated ≤ q.updated := by
  unfold update at h
  split at h
  · cases h
    exact ⟨rfl, hclock⟩
  · cases h

/-- Witness for C6 at a concrete successful update. -/
theorem update_refreshes_updated_witness :
    (Person.mk (some "Grace") none 1 7).updated = 7 ∧
    (Person.mk none none 1 2).updated ≤ (Person.mk (some "Grace") none 1 7).updated :=
  update_refreshes_updated (Person.mk none none 1 2) (some "Grace") none 7
    (Person.mk (some "Grace") none 1 7) (by decide) rfl

/-- **C7.** For each name-field position, any text of length at most 256
characters (including the empty string, and the absent value, whose
acceptance the `hv` hypothesis records for the other field) is accepted on
create or update, while a 257-character value is rejected by the persistence
collaborator with a length error, leaving the stored record unchanged. -/
theorem name_length_boundary (p : Person) (s : String) (v : Option String)
    (now : Nat) (hv : fieldOk v = true) :
    (s.length ≤ 256 →
      (∃ q, update p (some s) v now = .ok q) ∧
      (∃ q, update p v (some s) now = .ok q) ∧
      (∃ q, create (some s) v now = .ok q) ∧
      (∃ q, create v (some s) now = .ok q)) ∧
    ((∃ q, update p none v now = .ok q) ∧ (∃ q, update p v none now = .ok q)) ∧
    (s.length = 257 →
      update p (some s) v now = .error .lengthExceeded ∧
      update p v (some s) now = .error .lengthExceeded ∧
      create (some s) v now = .error .lengthExceeded ∧
      create v (some s) now = .error .lengthExceeded ∧
      applyUpdate p (some s, v, now) = p) := by
  have hnone : fieldOk none = true := rfl
  refine ⟨fun hle => ?_, ⟨?_, ?_⟩, fun h257 => ?_⟩
  · have hs : fieldOk (some s) = true := by
      simp [fieldOk, hle]
    refine ⟨?_, ?_, ?_, ?_⟩ <;> simp [update, create, hs, hv]
  · simp [update, hv, hnone]
  · simp [update, hv, hnone]
  · have hs : fieldOk (some s) = false := by
      simp [fieldOk, h257]
    refine ⟨by simp [update, hs], by simp [update, hs], by simp [create, hs],
      by simp [create, hs], ?_⟩
    unfold applyUpdate
    simp [update, hs]

/-- A concrete 257-character name value, one past the 256-character cap. -/
def longName : String := String.mk (List.replicate 257 'a')

/-- Witness for C7 at the concrete 257-character string `longName` and an
absent other field. -/
theorem name_length_boundary_witness :
    (longName.length ≤ 256 →
      (∃ q, update (Person.mk (some "Ada") none 1 1) (some longName) none 9 = .ok q) ∧
      (∃ q, update (Person.mk (some "Ada") none 1 1) none (some longName) 9 = .ok q) ∧
      (∃ q, create (some longName) none 9 = .ok q) ∧
      (∃ q, create none (some longName) 9 = .ok q)) ∧
    ((∃ q, update (Person.mk (some "Ada") none 1 1) none none 9 = .ok q) ∧
      (∃ q, update (Person.mk (some "Ada") none 1 1) none none 9 = .ok q)) ∧
    (longName.length = 257 →
      update (Person.mk (some "Ada") none 1 1) (some longName) none 9 =
        .error .lengthExceeded ∧
      update (Person.mk (some "Ada") none 1 1) none (some longName) 9 =
        .error .lengthExceeded ∧
      create (some longName) none 9 = .error .lengthExceeded ∧
      create none (some longName) 9 = .error .lengthExceeded ∧
      applyUpdate (Person.mk (some "Ada") none 1 1) (some longName, none, 9) =
        Person.mk (some "Ada") none 1 1) :=
  name_length_boundary (Person.mk (some "Ada") none 1 1) longName none 9 rfl

/-- **C8.** Creating a record without supplying a name field yields that field
absent (`none`, which is not the empty string), and `created` and `updated`
are both stamped with the current time by the persistence layer. -/
theorem create_defaults_absent (fn ln : Option String) (now : Nat)
    (hfn : fieldOk fn = true) (hln : fieldOk ln = true) :
    create none ln now = .ok (Person.mk none ln now now) ∧
    create fn none now = .ok (Person.mk fn none now now) ∧
    create none none now = .ok (Person.mk none none now now) ∧
    (Person.mk none ln now now).first_name = none ∧
    (Person.mk fn none now now).last_name = none ∧
    (Person.mk none ln now now).first_name ≠ some "" := by
  have hnone : fieldOk none = true := rfl
  refine ⟨?_, ?_, ?_, rfl, rfl, by simp⟩
  · simp [create, hln, hnone]
  · simp [create, hfn, hnone]
  · simp [create, hnone]

/-- Witness for C8 at concrete field values and time. -/
theorem create_defaults_absent_witness :
    create none (some "Lovelace") 4 = .ok (Person.mk none (some "Lovelace") 4 4) ∧
    create (some "Ada") none 4 = .ok (Person.mk (some "Ada") none 4 4) ∧
    create none none 4 = .ok (Person.mk none none 4 4) ∧
    (Person.mk none (some "Lovelace") 4 4).first_name = none ∧
    (Person.mk (some "Ada") none 4 4).last_name = none ∧
    (Person.mk none (some "Lovelace") 4 4).first_name ≠ some "" :=
  create_defaults_absent (some "Ada") (some "Lovelace") 4 rfl rfl

/-- **C9.** The absent-marker is the fixed four-character literal `"None"`:
in both derived views and in both field positions, an absent field is
substituted by exactly that string. -/
theorem absent_marker_is_None (fn ln : Option String) (c u : Nat) :
    formatArg none = "None" ∧
    (formatArg none).length = 4 ∧
    (Person.mk fn none c u).str = "None" ++ ", " ++ formatArg fn ∧
    (Person.mk none ln c u).str = formatArg ln ++ ", " ++ "None" ∧
    (Person.mk fn none c u).full_name = formatArg fn ++ " " ++ "None" ∧
    (Person.mk none ln c u).full_name = "None" ++ " " ++ formatArg ln := by
  refine ⟨rfl, rfl, ?_, ?_, ?_, ?_⟩
  · exact pyFormat_comma _ _
  · exact pyFormat_comma _ _
  · exact pyFormat_space _ _
  · exact pyFormat_space _ _

/-- **C10.** Both derived views are deterministic pure reads of the two name
fields only: records agreeing on `first_name` and `last_name` yield equal
view strings regardless of their `created` and `updated` timestamps (and, as
pure functions on the record value, the views modify nothing). -/
theorem views_depend_only_on_names (p q : Person)
    (h1 : p.first_name = q.first_name) (h2 : p.last_name = q.last_name) :
    p.str = q.str ∧ p.full_name = q.full_name := by
  unfold Person.str Person.full_name
  rw [h1, h2]
  exact ⟨rfl, rfl⟩

/-- Witness for C10 at two records equal in names but different in both
timestamps. -/
theorem views_depend_only_on_names_witness :
    (Person.mk (some "Ada") (some "Lovelace") 0 1).str =
      (Person.mk (some "Ada") (some "Lovelace") 10 99).str ∧
    (Person.mk (some "Ada") (some "Lovelace") 0 1).full_name =
      (Person.mk (some "Ada") (some "Lovelace") 10 99).full_name :=
  views_depend_only_on_names (Person.mk (some "Ada") (some "Lovelace") 0 1)
    (Person.mk (some "Ada") (some "Lovelace") 10 99) rfl rfl
